import Mathlib

/-! DAGA client: request generation, OR-proof construction and verification.

A shallow embedding of `dagapython/client.go` and the data types of
`dagapython/daga.go`.

Conventions of the embedding.

* `Sc` is the type of scalars (`abstract.Scalar`), a commutative ring, and `Pt`
  the type of curve points, a module over the scalars.  `Scalar().Zero()`,
  `One()`, `Add`, `Sub`, `Mul` are the ring operations of `Sc`.
* A Go value of interface type `abstract.Point` may be `nil`; it is an
  `Option Pt` with `none` for `nil`.  The source itself creates nil points
  (`make`, `append(S, nil)`), tests for them (`msg.T0 == nil`) and passes
  `nil` to `Mul` to mean the base point.  Scalars stored in slices are plain
  scalars; only `proof.cs`, which the source tests against `nil`, is optional.
* A slice is a `List`; `len` is `List.length`.
* A run-time panic (index out of range, use of a nil value) is the result
  `none` of an `Option`-valued function.
* `client.index` is a Go `int`, hence an `Int` here.
* The global `random.Stream` is a function `rand : Nat → Sc` giving the
  successive scalars drawn during one call.
-/

namespace Daga

/-! ## Data model -/

/-- The curve of a context (`ed25519.Curve`): it supplies the base point. -/
structure Curve (Pt : Type) where
  Base : Pt

/-- Group contains the list of client (X) and server (Y) public keys. -/
structure Group (Pt : Type) where
  X : List (Option Pt)
  Y : List (Option Pt)

/-- ContextEd25519 holds all the context elements for DAGA. -/
structure ContextEd25519 (Pt : Type) where
  G : Group Pt
  R : List (Option Pt)
  H : List (Option Pt)
  C : Curve Pt

/-- Client stores the private key and the index of a client. -/
structure Client (Sc : Type) where
  Private : Sc
  index : Int

/-- ClientProof stores the proof of a client. -/
structure ClientProof (Sc Pt : Type) where
  cs : Option Sc
  t : List (Option Pt)
  c : List Sc
  r : List Sc

/-- ClientMessage stores an authentication request message. -/
structure ClientMessage (Sc Pt : Type) where
  context : ContextEd25519 Pt
  S : List (Option Pt)
  T0 : Option Pt
  proof : ClientProof Sc Pt

section Operations

variable {Sc Pt : Type} [CommRing Sc] [AddCommGroup Pt] [Module Sc Pt]
variable [DecidableEq Sc] [DecidableEq Pt]

/-! ## The algebraic substrate -/

/-- The call `C.Point().Mul(A, s)`: the point `A` times `s`, where a nil `A`
stands for the base point of the curve. -/
def Mul (C : Curve Pt) (A : Option Pt) (s : Sc) : Pt :=
  match A with
  | none => s • C.Base
  | some a => s • a

/-- The call `C.Point().Add(a, b)`. -/
def Add (a b : Pt) : Pt := a + b

/-- The call `a.Equal(b)` on points: it dereferences `b`, so a nil `b` is a
panic. -/
def Equal (a : Pt) (b : Option Pt) : Option Bool :=
  match b with
  | none => none
  | some p => some (decide (a = p))

/-- The call `a.Equal(b)` on scalars; a nil `b` is a panic. -/
def ScalarEqual (a : Sc) (b : Option Sc) : Option Bool :=
  match b with
  | none => none
  | some x => some (decide (a = x))

/-! ## Slices -/

/-- The assignment `l[i] = x` at a loop index: a panic when out of range. -/
def setAt {α : Type} (l : List α) (i : Nat) (x : α) : Option (List α) :=
  if i < l.length then some (l.set i x) else none

/-- The read `l[i]` at an `int` index: a panic when negative or out of range. -/
def getI {α : Type} (l : List α) (i : Int) : Option α :=
  if i < 0 then none else l[i.toNat]?

/-- The assignment `l[i] = x` at an `int` index. -/
def setI {α : Type} (l : List α) (i : Int) (x : α) : Option (List α) :=
  if i < 0 then none else setAt l i.toNat x

/-- The builtin `copy(dst, src)`: overwrites the first
`min (len dst) (len src)` elements of `dst`. -/
def goCopy {α : Type} (dst src : List α) : List α :=
  src.take dst.length ++ dst.drop src.length

/-! ## VerifyClientProof -/

/-- One iteration of the commitment loop of `VerifyClientProof` (lines
151-172): `some false` when the body executes `return false`, `some true`
when it runs to its end, `none` on a panic. -/
def verifyStep (msg : ClientMessage Sc Pt) (i : Nat) : Option Bool :=
  (msg.context.G.X[i]?).bind fun Xi =>
  (msg.proof.c[i]?).bind fun ci =>
  let a := Mul msg.context.C Xi ci
  (msg.proof.r[2 * i]?).bind fun r0 =>
  let b := Mul msg.context.C none r0
  let ti0 := Add a b
  (msg.proof.t[3 * i]?).bind fun t0 =>
  (Equal ti0 t0).bind fun e0 =>
  if !e0 then some false else
  (if msg.S.length = 0 then none else msg.S[msg.S.length - 1]?).bind fun Sl =>
  let c := Mul msg.context.C Sl ci
  (msg.proof.r[2 * i + 1]?).bind fun r1 =>
  let d := Mul msg.context.C none r1
  let ti10 := Add c d
  (msg.proof.t[3 * i + 1]?).bind fun t1 =>
  (Equal ti10 t1).bind fun e1 =>
  if !e1 then some false else
  let e := Mul msg.context.C msg.T0 ci
  (msg.context.H[i]?).bind fun Hi =>
  let f := Mul msg.context.C Hi r1
  let ti11 := Add e f
  (msg.proof.t[3 * i + 2]?).bind fun t2 =>
  (Equal ti11 t2).bind fun e2 =>
  if !e2 then some false else
  some true

/-- The loop `for i := 0; i < n; i++` of `VerifyClientProof`, started at `i`
with `k = n - i` iterations left. -/
def verifyLoop (msg : ClientMessage Sc Pt) : Nat → Nat → Option Bool
  | 0, _ => some true
  | k + 1, i =>
    match verifyStep msg i with
    | none => none
    | some false => some false
    | some true => verifyLoop msg k (i + 1)

/-- The sum `Zero + c[0] + c[1] + ...` computed by the challenge loop. -/
def sumScalars (l : List Sc) : Sc :=
  l.foldl (fun acc ci => acc + ci) 0

/-- VerifyClientProof checks the validity of the proof of a client. -/
def VerifyClientProof (msg : ClientMessage Sc Pt) : Option Bool :=
  let n := msg.context.G.X.length
  if msg.proof.c.length ≠ n then some false
  else if msg.proof.r.length ≠ 2 * n then some false
  else if msg.proof.t.length ≠ 3 * n then some false
  else
    match verifyLoop msg n 0 with
    | none => none
    | some false => some false
    | some true =>
      (ScalarEqual (sumScalars msg.proof.c) msg.proof.cs).bind fun e =>
      if !e then some false else some true

/-! ## CreateRequest -/

/-- The three ways a call of `CreateRequest` can end: with its results, with
a returned error, or with a run-time panic. -/
inductive Outcome (α : Type) where
  | ok : α → Outcome α
  | error : String → Outcome α
  | fault : Outcome α
  deriving DecidableEq

/-- Step 2 of `CreateRequest` (lines 43-52), started at `i` with `k`
iterations left: the digest of the marshalled point `Y[i] * z` is stored in
`shared[i]`; a marshalling error ends the call with an error. -/
def sharedLoop (ctx : ContextEd25519 Pt) (z : Sc)
    (marshalTo : Pt → Except String (List Nat)) (sha512 : List Nat → List Nat) :
    Nat → Nat → List (List Nat) → Outcome (List (List Nat))
  | 0, _, shared => Outcome.ok shared
  | k + 1, i, shared =>
    match ctx.G.Y[i]? with
    | none => Outcome.fault
    | some Yi =>
      match marshalTo (Mul ctx.C Yi z) with
      | Except.error err => Outcome.error ("Error in shared secrets: " ++ err)
      | Except.ok bytes =>
        match setAt shared i (sha512 bytes) with
        | none => Outcome.fault
        | some shared1 => sharedLoop ctx z marshalTo sha512 k (i + 1) shared1

/-- The exponent loop of step 3 (lines 57-59), started at `i` with `k`
iterations left. -/
def expLoop (setBytes : List Nat → Sc) (shared : List (List Nat)) :
    Nat → Nat → Sc → Option Sc
  | 0, _, exp => some exp
  | k + 1, i, exp =>
    (shared[i]?).bind fun sh => expLoop setBytes shared k (i + 1) (exp * setBytes sh)

/-- The commitment loop of step 3 (lines 65-68), started at `i` with `k`
iterations left: it stores `Base * exp` in `S[i]`, then multiplies `exp` by
the scalar of `shared[i]`. -/
def chainLoop (C : Curve Pt) (setBytes : List Nat → Sc) (shared : List (List Nat)) :
    Nat → Nat → List (Option Pt) → Sc → Option (List (Option Pt) × Sc)
  | 0, _, S, exp => some (S, exp)
  | k + 1, i, S, exp =>
    (setAt S i (some (Mul C none exp))).bind fun S1 =>
    (shared[i]?).bind fun sh =>
    chainLoop C setBytes shared k (i + 1) S1 (exp * setBytes sh)

/-- The prepend of lines 74-76: `S = append(S, nil); copy(S[1:], S); S[0] = Z`.
The source and destination of `copy` overlap; `copy` reads the source as it
was before the call. -/
def prepend (S : List (Option Pt)) (Z : Pt) : Option (List (Option Pt)) :=
  let S1 := S ++ [none]
  let S2 := S1.take 1 ++ goCopy (S1.drop 1) S1
  setAt S2 0 (some Z)

/-- CreateRequest generates the elements of the authentication request
`(T0, S)` and the scalar `s` used by the proof.  The ephemeral scalar `z` is
the first draw `rand 0`; `marshalTo`, `sha512` and `setBytes` are the point
serialisation, the hash and `Scalar().SetBytes`. -/
def CreateRequest (client : Client Sc) (ctx : ContextEd25519 Pt) (rand : Nat → Sc)
    (marshalTo : Pt → Except String (List Nat)) (sha512 : List Nat → List Nat)
    (setBytes : List Nat → Sc) : Outcome (Option Pt × List (Option Pt) × Sc) :=
  let z := rand 0
  let Z := Mul ctx.C none z
  let m := ctx.G.Y.length
  match sharedLoop ctx z marshalTo sha512 m 0 (List.replicate m []) with
  | Outcome.fault => Outcome.fault
  | Outcome.error err => Outcome.error err
  | Outcome.ok shared =>
    match expLoop setBytes shared m 0 1 with
    | none => Outcome.fault
    | some exp =>
      match getI ctx.H client.index with
      | none => Outcome.fault
      | some Hi =>
        let T0 := Mul ctx.C Hi exp
        match chainLoop ctx.C setBytes shared (m + 1) 0 (List.replicate m none) 1 with
        | none => Outcome.fault
        | some (S, s) =>
          match prepend S Z with
          | none => Outcome.fault
          | some S3 => Outcome.ok (some T0, S3, s)

/-! ## GenerateProofCommitments -/

/-- The commitment loop of `GenerateProofCommitments` (lines 98-111), started
at `i` with `k` iterations left. -/
def commitLoop (ctx : ContextEd25519 Pt) (T0 : Option Pt) (s : Sc) (w v : List Sc) :
    Nat → Nat → List (Option Pt) → Option (List (Option Pt))
  | 0, _, t => some t
  | k + 1, i, t =>
    (ctx.H[i]?).bind fun Hi =>
    (w[i]?).bind fun wi =>
    let a := Mul ctx.C Hi wi
    (v[2 * i]?).bind fun v0 =>
    let b := Mul ctx.C none v0
    (setAt t (3 * i) (some (Add a b))).bind fun t1 =>
    let Sm := Mul ctx.C none s
    let c := Mul ctx.C (some Sm) wi
    (v[2 * i + 1]?).bind fun v1 =>
    let d := Mul ctx.C none v1
    (setAt t1 (3 * i + 1) (some (Add c d))).bind fun t2 =>
    let e := Mul ctx.C T0 wi
    let f := Mul ctx.C Hi v1
    (setAt t2 (3 * i + 2) (some (Add e f))).bind fun t3 =>
    commitLoop ctx T0 s w v k (i + 1) t3

/-- GenerateProofCommitments creates the commitments `t` and the random
weights `w` and `v`.  The scalars `w[0..N-1]` are the first `N` draws and
`v[0..2N-1]` the next `2N`. -/
def GenerateProofCommitments (client : Client Sc) (ctx : ContextEd25519 Pt)
    (rand : Nat → Sc) (T0 : Option Pt) (s : Sc) :
    Option (List (Option Pt) × List Sc × List Sc) :=
  let n := ctx.H.length
  let w0 := (List.range n).map rand
  (setI w0 client.index 0).bind fun w =>
  let v := (List.range (2 * n)).map fun i => rand (n + i)
  (commitLoop ctx T0 s w v n 0 (List.replicate (3 * n) none)).bind fun t =>
  some (t, v, w)

/-! ## GenerateProofResponses -/

/-- GenerateProofResponses creates the responses to the challenge `cs`.  The
named results `c` and `r` start as nil slices. -/
def GenerateProofResponses (client : Client Sc) (_ctx : ContextEd25519 Pt)
    (s cs : Sc) (w v : List Sc) : Option (List Sc × List Sc) :=
  let c0 : List Sc := []
  let r0 : List Sc := []
  let c1 := goCopy c0 w
  let sum := sumScalars w
  (setI c1 client.index (cs - sum)).bind fun c =>
  let r1 := goCopy r0 v
  (getI c client.index).bind fun ci =>
  let a := ci * client.Private
  (getI v (2 * client.index)).bind fun v0 =>
  (setI r1 (2 * client.index) (v0 - a)).bind fun r2 =>
  (getI c client.index).bind fun ci1 =>
  let b := ci1 * s
  (getI v (2 * client.index + 1)).bind fun v1 =>
  (setI r2 (2 * client.index + 1) (v1 - b)).bind fun r =>
  some (c, r)

/-- The honest run the completeness property speaks of: commitments, then
responses to the challenge `cs`, then verification of the assembled message. -/
def honestRun (client : Client Sc) (ctx : ContextEd25519 Pt) (rand : Nat → Sc)
    (S : List (Option Pt)) (T0 : Option Pt) (s cs : Sc) : Option Bool :=
  (GenerateProofCommitments client ctx rand T0 s).bind fun tvw =>
  (GenerateProofResponses client ctx s cs tvw.2.2 tvw.2.1).bind fun cr =>
  VerifyClientProof
    { context := ctx, S := S, T0 := T0,
      proof := { cs := some cs, t := tvw.1, c := cr.1, r := cr.2 } }

/-! ## ValidateClientMessage -/

/-- The outcome of `==` at line 196 on the code: the points of the curve are
pointers (the source updates them in place, as in `exp.Mul(exp, ...)`), and the
right operand is the point that `C.Point()` allocates within the same
expression, so it is identical to no element of `S`. -/
def samePointer (_a : Option Pt) (_b : Pt) : Bool := false

/-- ValidateClientMessage is an utility function to validate that a client
message is correctly formed.  Line 196 applies the operator `!=` of Go to two
interface values of type `abstract.Point`, the element `S[0]` and a freshly
built point.  What that operator compares (the identity of two pointers, or
two values) is fixed by the point type of the curve library, which is not
part of this repository, so its outcome is the parameter `same`: `same a b`
says whether `a == b` holds.  On the code the outcome is `samePointer`. -/
def ValidateClientMessage (same : Option Pt → Pt → Bool) (msg : ClientMessage Sc Pt) :
    Option Bool :=
  let i := msg.context.G.X.length
  let j := msg.context.G.Y.length
  if msg.S.length ≠ j + 2 then some false
  else
    (msg.S[0]?).bind fun S0 =>
    if !(same S0 (Mul msg.context.C none (1 : Sc))) then some false
    else if msg.T0.isNone then some false
    else if msg.proof.c.length ≠ j ∨ msg.proof.r.length ≠ 2 * i ∨
        msg.proof.t.length ≠ 3 * i ∨ msg.proof.cs.isNone then some false
    else some true

end Operations

/-! ## Sample data over the integers -/

/-- A context with one client and one server over `ℤ` with base point 1. -/
def ctx1 : ContextEd25519 ℤ :=
  { G := { X := [some 2], Y := [some 9] }, R := [some 4], H := [some 3], C := { Base := 1 } }

/-- An accepted message over `ctx1`. -/
def msg1 : ClientMessage ℤ ℤ :=
  { context := ctx1, S := [some 5, some 7], T0 := some 5,
    proof := { cs := some 1, t := [some 5, some 11, some 17], c := [1], r := [3, 4] } }

/-- The client of index 0 of `ctx1`: its key 2 matches `X[0] = Base * 2`. -/
def client1 : Client ℤ :=
  { Private := 2, index := 0 }

/-- A sample stream of draws: 1, 2, 3, ... -/
def rand1 (i : Nat) : ℤ := (i : ℤ) + 1

/-- A sample serialisation of points that never fails. -/
def marshal1 (p : ℤ) : Except String (List Nat) := Except.ok [p.toNat]

/-- A sample digest. -/
def hash1 (b : List Nat) : List Nat := b

/-- A sample `SetBytes`. -/
def setBytes1 (b : List Nat) : ℤ := (b.sum : ℤ)

/-- A context with two clients and one server over `ℤ` with base point 1. -/
def ctx2 : ContextEd25519 ℤ :=
  { G := { X := [some 2, some 5], Y := [some 9] }, R := [some 4], H := [some 3, some 7],
    C := { Base := 1 } }

/-- An accepted message over `ctx1` whose only challenge is zero. -/
def msg0 : ClientMessage ℤ ℤ :=
  { context := ctx1, S := [some 5, some 7], T0 := some 5,
    proof := { cs := some 0, t := [some 3, some 4, some 12], c := [0], r := [3, 4] } }





/-- The message `msg1` with a chain of `M + 2 = 3` points whose second element
is the base point. -/
def msg5 : ClientMessage ℤ ℤ :=
  { msg1 with S := [some 5, some 1, some 7] }

/-- A message over `ctx2`, with two clients and one server, that
`VerifyClientProof` accepts; its chain has `M + 2 = 3` points and starts with
two copies of the base point. -/
def msg6 : ClientMessage ℤ ℤ :=
  { context := ctx2, S := [some 1, some 1, some 4], T0 := some 12,
    proof := { cs := some 5, t := [some 3, some 4, some 12, some 15, some 14, some 66],
               c := [3, 2], r := [-3, -8, 5, 6] } }

/-- A message over a context without clients, with an empty chain and no tag. -/
def msgEmpty : ClientMessage ℤ ℤ :=
  { context := { G := { X := [], Y := [some 9] }, R := [some 4], H := [], C := { Base := 1 } },
    S := [], T0 := none, proof := { cs := some 0, t := [], c := [], r := [] } }

set_option linter.unusedSectionVars false

/-! ## Lemmas on slices and on the verifier -/

section Lemmas
variable {Sc Pt : Type} [CommRing Sc] [AddCommGroup Pt] [Module Sc Pt]
variable [DecidableEq Sc] [DecidableEq Pt]

theorem lookup_of_lt {α : Type} (l : List α) (i : Nat) (d : α) (h : i < l.length) :
    l[i]? = some (l.getD i d) := by
  simp [List.getD, List.getElem?_eq_getElem h]

theorem lookup_some {α : Type} {l : List α} {i : Nat} {a : α} (d : α) (h : l[i]? = some a) :
    i < l.length ∧ l.getD i d = a := by
  obtain ⟨hlt, rfl⟩ := List.getElem?_eq_some.mp h
  exact ⟨hlt, by simp [List.getD, List.getElem?_eq_getElem hlt]⟩

theorem lastLookup_of_ne_nil {α : Type} (l : List α) (d : α) (h : l ≠ []) :
    (if l.length = 0 then none else l[l.length - 1]?) = some (l.getLastD d) := by
  have hlen : l.length ≠ 0 := by simpa using h
  rw [if_neg hlen, ← List.getLast?_eq_getElem?, List.getLastD_eq_getLast?,
    List.getLast?_eq_getLast l h]
  rfl

theorem lastLookup_some {α : Type} {l : List α} {a : α} (d : α)
    (h : (if l.length = 0 then none else l[l.length - 1]?) = some a) :
    l ≠ [] ∧ l.getLastD d = a := by
  have hne : l ≠ [] := by
    rintro rfl
    simp at h
  rw [lastLookup_of_ne_nil l d hne] at h
  exact ⟨hne, Option.some.inj h⟩

theorem Equal_eq_some_true (a : Pt) (b : Option Pt) : Equal a b = some true ↔ b = some a := by
  cases b with
  | none => simp [Equal]
  | some p => simp [Equal, eq_comm]

theorem Equal_some (a p : Pt) : Equal a (some p) = some (decide (a = p)) := rfl

theorem verifyStep_eq_some_true_iff (msg : ClientMessage Sc Pt) (i : Nat) :
    verifyStep msg i = some true ↔
      i < msg.context.G.X.length ∧ i < msg.proof.c.length ∧ 2 * i + 1 < msg.proof.r.length ∧
      3 * i + 2 < msg.proof.t.length ∧ msg.S ≠ [] ∧ i < msg.context.H.length ∧
      msg.proof.t.getD (3 * i) none
        = some (Mul msg.context.C (msg.context.G.X.getD i none) (msg.proof.c.getD i 0)
            + Mul msg.context.C none (msg.proof.r.getD (2 * i) 0)) ∧
      msg.proof.t.getD (3 * i + 1) none
        = some (Mul msg.context.C (msg.S.getLastD none) (msg.proof.c.getD i 0)
            + Mul msg.context.C none (msg.proof.r.getD (2 * i + 1) 0)) ∧
      msg.proof.t.getD (3 * i + 2) none
        = some (Mul msg.context.C msg.T0 (msg.proof.c.getD i 0)
            + Mul msg.context.C (msg.context.H.getD i none) (msg.proof.r.getD (2 * i + 1) 0)) := by
  unfold verifyStep
  simp only [Add]
  constructor
  · intro h
    simp only [Option.bind_eq_some] at h
    obtain ⟨Xi, hX, ci, hc, r0, hr0, t0, ht0, e0, he0, h⟩ := h
    cases e0 with
    | false => simp at h
    | true =>
      simp only [Bool.not_true, Bool.false_eq_true, if_false, Option.bind_eq_some] at h
      obtain ⟨Sl, hS, r1, hr1, t1, ht1, e1, he1, h⟩ := h
      cases e1 with
      | false => simp at h
      | true =>
        simp only [Bool.not_true, Bool.false_eq_true, if_false, Option.bind_eq_some] at h
        obtain ⟨Hi, hH, t2, ht2, e2, he2, h⟩ := h
        cases e2 with
        | false => simp at h
        | true =>
          obtain ⟨hX1, hX2⟩ := lookup_some none hX
          obtain ⟨hc1, hc2⟩ := lookup_some 0 hc
          obtain ⟨-, hr02⟩ := lookup_some 0 hr0
          obtain ⟨hr11, hr12⟩ := lookup_some 0 hr1
          obtain ⟨-, ht02⟩ := lookup_some none ht0
          obtain ⟨-, ht12⟩ := lookup_some none ht1
          obtain ⟨ht21, ht22⟩ := lookup_some none ht2
          obtain ⟨hH1, hH2⟩ := lookup_some none hH
          obtain ⟨hS1, hS2⟩ := lastLookup_some none hS
          rw [Equal_eq_some_true] at he0 he1 he2
          subst hX2 hc2 hr02 hr12 hH2 hS2
          refine ⟨hX1, hc1, hr11, ht21, hS1, hH1, ?_, ?_, ?_⟩
          · rw [ht02, he0]
          · rw [ht12, he1]
          · rw [ht22, he2]
  · rintro ⟨hX, hc, hr, ht, hS, hH, h0, h1, h2⟩
    rw [lookup_of_lt _ i none hX, lookup_of_lt _ i 0 hc,
      lookup_of_lt _ (2 * i) 0 (by omega), lookup_of_lt _ (2 * i + 1) 0 hr,
      lookup_of_lt _ (3 * i) none (by omega), lookup_of_lt _ (3 * i + 1) none (by omega),
      lookup_of_lt _ (3 * i + 2) none ht, lookup_of_lt _ i none hH,
      lastLookup_of_ne_nil _ none hS, h0, h1, h2]
    simp [Equal]

theorem verifyStep_ne_none (msg : ClientMessage Sc Pt) (i : Nat)
    (hX : i < msg.context.G.X.length) (hc : i < msg.proof.c.length)
    (hr : 2 * i + 1 < msg.proof.r.length) (ht : 3 * i + 2 < msg.proof.t.length)
    (hS : msg.S ≠ []) (hH : i < msg.context.H.length)
    (h0 : msg.proof.t.getD (3 * i) none ≠ none)
    (h1 : msg.proof.t.getD (3 * i + 1) none ≠ none)
    (h2 : msg.proof.t.getD (3 * i + 2) none ≠ none) :
    verifyStep msg i ≠ none := by
  obtain ⟨p0, hp0⟩ := Option.ne_none_iff_exists.mp h0
  obtain ⟨p1, hp1⟩ := Option.ne_none_iff_exists.mp h1
  obtain ⟨p2, hp2⟩ := Option.ne_none_iff_exists.mp h2
  unfold verifyStep
  rw [lookup_of_lt _ i none hX, lookup_of_lt _ i 0 hc,
    lookup_of_lt _ (2 * i) 0 (by omega), lookup_of_lt _ (2 * i + 1) 0 hr,
    lookup_of_lt _ (3 * i) none (by omega), lookup_of_lt _ (3 * i + 1) none (by omega),
    lookup_of_lt _ (3 * i + 2) none ht, lookup_of_lt _ i none hH,
    lastLookup_of_ne_nil _ none hS, ← hp0, ← hp1, ← hp2]
  simp only [Option.some_bind, Equal_some]
  split_ifs <;> simp

theorem verifyLoop_eq_some_true_iff (msg : ClientMessage Sc Pt) (k i : Nat) :
    verifyLoop msg k i = some true ↔ ∀ j, i ≤ j → j < i + k → verifyStep msg j = some true := by
  induction k generalizing i with
  | zero =>
    simp only [verifyLoop, true_iff]
    intro j h1 h2
    omega
  | succ k ih =>
    unfold verifyLoop
    constructor
    · intro h j h1 h2
      cases hs : verifyStep msg i with
      | none => simp [hs] at h
      | some b =>
        cases b with
        | false => simp [hs] at h
        | true =>
          rw [hs] at h
          rcases Nat.eq_or_lt_of_le h1 with rfl | hlt
          · exact hs
          · exact (ih (i + 1)).mp h j hlt (by omega)
    · intro h
      rw [h i (le_refl i) (by omega)]
      exact (ih (i + 1)).mpr fun j h1 h2 => h j (by omega) (by omega)

theorem verifyLoop_ne_none (msg : ClientMessage Sc Pt) (k i : Nat)
    (h : ∀ j, i ≤ j → j < i + k → verifyStep msg j ≠ none) : verifyLoop msg k i ≠ none := by
  induction k generalizing i with
  | zero => simp [verifyLoop]
  | succ k ih =>
    unfold verifyLoop
    cases hs : verifyStep msg i with
    | none => exact absurd hs (h i (le_refl i) (by omega))
    | some b =>
      cases b with
      | false => simp
      | true => exact ih (i + 1) fun j h1 h2 => h j (by omega) (by omega)

theorem sumScalars_eq_sum (l : List Sc) : sumScalars l = l.sum := by
  have h : ∀ (l : List Sc) (a : Sc), l.foldl (fun acc ci => acc + ci) a = a + l.sum := by
    intro l
    induction l with
    | nil => intro a; simp
    | cons x xs ih => intro a; simp [ih, add_assoc]
  simp [sumScalars, h]

theorem ScalarEqual_eq_some_true (a : Sc) (b : Option Sc) :
    ScalarEqual a b = some true ↔ b = some a := by
  cases b with
  | none => simp [ScalarEqual]
  | some p => simp [ScalarEqual, eq_comm]

/-- Characterisation of acceptance, with no assumption on the message. -/
theorem VerifyClientProof_eq_some_true_iff (msg : ClientMessage Sc Pt) :
    VerifyClientProof msg = some true ↔
      msg.proof.c.length = msg.context.G.X.length ∧
      msg.proof.r.length = 2 * msg.context.G.X.length ∧
      msg.proof.t.length = 3 * msg.context.G.X.length ∧
      (∀ i, i < msg.context.G.X.length → verifyStep msg i = some true) ∧
      msg.proof.cs = some msg.proof.c.sum := by
  unfold VerifyClientProof
  simp only []
  by_cases hc : msg.proof.c.length = msg.context.G.X.length
  swap
  · simp [hc]
  by_cases hr : msg.proof.r.length = 2 * msg.context.G.X.length
  swap
  · simp [hr]
  by_cases ht : msg.proof.t.length = 3 * msg.context.G.X.length
  swap
  · simp [ht]
  simp only [hc, hr, ht, ne_eq, not_true_eq_false, if_false, true_and]
  have hloop := verifyLoop_eq_some_true_iff msg msg.context.G.X.length 0
  simp only [Nat.zero_le, Nat.zero_add, true_implies] at hloop
  rw [← hloop]
  cases hl : verifyLoop msg msg.context.G.X.length 0 with
  | none => simp
  | some b =>
    cases b with
    | false => simp
    | true =>
      simp only [true_and]
      rw [sumScalars_eq_sum]
      cases hcs : msg.proof.cs with
      | none => simp [ScalarEqual]
      | some x =>
        by_cases hx : msg.proof.c.sum = x
        · simp [ScalarEqual, hx]
        · have hx1 : ¬ x = msg.proof.c.sum := fun h => hx h.symm
          simp [ScalarEqual, hx, hx1]


theorem getD_set_self {α : Type} (l : List α) (k : Nat) (x d : α) (h : k < l.length) :
    (l.set k x).getD k d = x := by
  simp [List.getD, List.getElem?_set, h]

theorem getD_set_ne {α : Type} (l : List α) (k j : Nat) (x d : α) (h : k ≠ j) :
    (l.set k x).getD j d = l.getD j d := by
  simp [List.getD, List.getElem?_set, h]

/-- A message that passes the length checks, has a non-empty `S` unless there
is no client, enough generators, non-nil commitments and a non-nil `cs` is
verified without a panic. -/
theorem VerifyClientProof_ne_none (msg : ClientMessage Sc Pt)
    (hS : 0 < msg.context.G.X.length → msg.S ≠ [])
    (hH : msg.context.G.X.length ≤ msg.context.H.length)
    (ht : ∀ m, m < msg.proof.t.length → msg.proof.t.getD m none ≠ none)
    (hcs : msg.proof.cs ≠ none) :
    VerifyClientProof msg ≠ none := by
  unfold VerifyClientProof
  simp only []
  by_cases hc : msg.proof.c.length = msg.context.G.X.length
  swap
  · simp [hc]
  by_cases hr : msg.proof.r.length = 2 * msg.context.G.X.length
  swap
  · simp [hr]
  by_cases hl : msg.proof.t.length = 3 * msg.context.G.X.length
  swap
  · simp [hl]
  simp only [hc, hr, hl, ne_eq, not_true_eq_false, if_false]
  have hloop : verifyLoop msg msg.context.G.X.length 0 ≠ none := by
    apply verifyLoop_ne_none
    intro j _ hj
    have hj1 : j < msg.context.G.X.length := by omega
    exact verifyStep_ne_none msg j hj1 (by omega) (by omega) (by omega) (hS (by omega))
      (by omega) (ht _ (by omega)) (ht _ (by omega)) (ht _ (by omega))
  cases hv : verifyLoop msg msg.context.G.X.length 0 with
  | none => exact absurd hv hloop
  | some b =>
    cases b with
    | false => simp
    | true =>
      obtain ⟨x, hx⟩ := Option.ne_none_iff_exists.mp hcs
      rw [← hx]
      simp only [ScalarEqual, Option.some_bind]
      split_ifs <;> simp

theorem eq_some_false_of_ne {o : Option Bool} (h1 : o ≠ none) (h2 : o ≠ some true) :
    o = some false := by
  cases o with
  | none => exact absurd rfl h1
  | some b =>
    cases b with
    | false => rfl
    | true => exact absurd rfl h2

/-- What acceptance says about the message, spelled out. -/
theorem accepted_facts (msg : ClientMessage Sc Pt) (h : VerifyClientProof msg = some true) :
    msg.proof.c.length = msg.context.G.X.length ∧
    msg.proof.r.length = 2 * msg.context.G.X.length ∧
    msg.proof.t.length = 3 * msg.context.G.X.length ∧
    (0 < msg.context.G.X.length → msg.S ≠ []) ∧
    msg.context.G.X.length ≤ msg.context.H.length ∧
    (∀ m, m < msg.proof.t.length → msg.proof.t.getD m none ≠ none) ∧
    msg.proof.cs = some msg.proof.c.sum := by
  obtain ⟨hc, hr, ht, hstep, hcs⟩ := (VerifyClientProof_eq_some_true_iff msg).mp h
  refine ⟨hc, hr, ht, ?_, ?_, ?_, hcs⟩
  · intro hpos
    exact ((verifyStep_eq_some_true_iff msg 0).mp (hstep 0 hpos)).2.2.2.2.1
  · by_contra hlt
    have hpos : msg.context.H.length < msg.context.G.X.length := by omega
    have := ((verifyStep_eq_some_true_iff msg _).mp (hstep _ hpos)).2.2.2.2.2.1
    omega
  · intro m hm
    have hi : m / 3 < msg.context.G.X.length := by omega
    obtain ⟨-, -, -, -, -, -, e0, e1, e2⟩ :=
      (verifyStep_eq_some_true_iff msg _).mp (hstep _ hi)
    have hcase : m = 3 * (m / 3) ∨ m = 3 * (m / 3) + 1 ∨ m = 3 * (m / 3) + 2 := by omega
    rcases hcase with hm0 | hm1 | hm2
    · rw [hm0, e0]; simp
    · rw [hm1, e1]; simp
    · rw [hm2, e2]; simp


/-! ## Claims on VerifyClientProof -/

/-- C2: for a message whose commitment chain `S` is non-empty and whose context
has at least as many generators `H` as clients `X`, `VerifyClientProof` returns
true exactly when `c`, `r`, `t` have lengths `N`, `2N`, `3N`, the three
commitment equations hold at every index below `N`, and the sum of `c` is
`cs`. -/
theorem VerifyClientProof_true_iff (msg : ClientMessage Sc Pt) (hS : msg.S ≠ [])
    (hH : msg.context.G.X.length ≤ msg.context.H.length) :
    VerifyClientProof msg = some true ↔
      msg.proof.c.length = msg.context.G.X.length ∧
      msg.proof.r.length = 2 * msg.context.G.X.length ∧
      msg.proof.t.length = 3 * msg.context.G.X.length ∧
      (∀ i, i < msg.context.G.X.length →
        msg.proof.t.getD (3 * i) none
          = some (Mul msg.context.C (msg.context.G.X.getD i none) (msg.proof.c.getD i 0)
              + Mul msg.context.C none (msg.proof.r.getD (2 * i) 0)) ∧
        msg.proof.t.getD (3 * i + 1) none
          = some (Mul msg.context.C (msg.S.getLastD none) (msg.proof.c.getD i 0)
              + Mul msg.context.C none (msg.proof.r.getD (2 * i + 1) 0)) ∧
        msg.proof.t.getD (3 * i + 2) none
          = some (Mul msg.context.C msg.T0 (msg.proof.c.getD i 0)
              + Mul msg.context.C (msg.context.H.getD i none)
                  (msg.proof.r.getD (2 * i + 1) 0))) ∧
      msg.proof.cs = some msg.proof.c.sum := by
  rw [VerifyClientProof_eq_some_true_iff]
  constructor
  · rintro ⟨hc, hr, ht, hstep, hcs⟩
    refine ⟨hc, hr, ht, fun i hi => ?_, hcs⟩
    exact ((verifyStep_eq_some_true_iff msg i).mp (hstep i hi)).2.2.2.2.2.2
  · rintro ⟨hc, hr, ht, heq, hcs⟩
    refine ⟨hc, hr, ht, fun i hi => ?_, hcs⟩
    exact (verifyStep_eq_some_true_iff msg i).mpr
      ⟨hi, by omega, by omega, by omega, hS, by omega, heq i hi⟩

/-- Witness of C2 on the sample message `msg1`. -/
theorem VerifyClientProof_true_iff_witness :
    msg1.S ≠ [] ∧ msg1.context.G.X.length ≤ msg1.context.H.length ∧
      VerifyClientProof msg1 = some true ∧
      msg1.proof.t.getD 1 none
        = some (Mul msg1.context.C (msg1.S.getLastD none) (msg1.proof.c.getD 0 0)
            + Mul msg1.context.C none (msg1.proof.r.getD 1 0)) :=
  ⟨by decide, by decide, by decide,
    (((VerifyClientProof_true_iff msg1 (by decide) (by decide)).mp (by decide)).2.2.2.1 0
      (by decide)).2.1⟩

/-- C3: whatever else the message holds, a proof whose `c`, `r` or `t` has the
wrong length (`N`, `2N`, `3N` for `N = len(context.G.X)`) is rejected. -/
theorem VerifyClientProof_false_of_length (msg : ClientMessage Sc Pt)
    (h : msg.proof.c.length ≠ msg.context.G.X.length ∨
      msg.proof.r.length ≠ 2 * msg.context.G.X.length ∨
      msg.proof.t.length ≠ 3 * msg.context.G.X.length) :
    VerifyClientProof msg = some false := by
  unfold VerifyClientProof
  simp only []
  by_cases hc : msg.proof.c.length = msg.context.G.X.length
  swap
  · simp [hc]
  by_cases hr : msg.proof.r.length = 2 * msg.context.G.X.length
  swap
  · simp [hr]
  by_cases ht : msg.proof.t.length = 3 * msg.context.G.X.length
  swap
  · simp [ht]
  rcases h with h | h | h
  · exact absurd hc h
  · exact absurd hr h
  · exact absurd ht h

/-- Witness of C3: `msg1` with one response dropped. -/
theorem VerifyClientProof_false_of_length_witness :
    VerifyClientProof { msg1 with proof := { msg1.proof with r := [3] } } = some false :=
  VerifyClientProof_false_of_length _ (Or.inr (Or.inl (by decide)))

/-- C4: on an accepted message the sum of the entries of `proof.c`, taken in
the scalars, equals `proof.cs`. -/
theorem VerifyClientProof_challenge_sum (msg : ClientMessage Sc Pt)
    (h : VerifyClientProof msg = some true) :
    msg.proof.cs = some msg.proof.c.sum :=
  ((VerifyClientProof_eq_some_true_iff msg).mp h).2.2.2.2

/-- Witness of C4 on the accepted message `msg1`. -/
theorem VerifyClientProof_challenge_sum_witness :
    VerifyClientProof msg1 = some true ∧ msg1.proof.cs = some msg1.proof.c.sum :=
  ⟨by decide, VerifyClientProof_challenge_sum msg1 (by decide)⟩


/-- C5: on an accepted message, over a group where `a ↦ Base * a` is injective,
replacing one scalar of `proof.c`, one scalar of `proof.r`, or one point of
`proof.t` by a different one gives a message that is rejected. -/
theorem VerifyClientProof_proof_mutation (msg : ClientMessage Sc Pt)
    (hacc : VerifyClientProof msg = some true)
    (hinj : Function.Injective fun a : Sc => a • msg.context.C.Base) :
    (∀ k x, k < msg.proof.c.length → x ≠ msg.proof.c.getD k 0 →
      VerifyClientProof { msg with proof := { msg.proof with c := msg.proof.c.set k x } }
        = some false) ∧
    (∀ k x, k < msg.proof.r.length → x ≠ msg.proof.r.getD k 0 →
      VerifyClientProof { msg with proof := { msg.proof with r := msg.proof.r.set k x } }
        = some false) ∧
    (∀ k p, k < msg.proof.t.length → some p ≠ msg.proof.t.getD k none →
      VerifyClientProof { msg with proof := { msg.proof with t := msg.proof.t.set k (some p) } }
        = some false) := by
  obtain ⟨hc, hr, ht, hS, hH, htn, hcs⟩ := accepted_facts msg hacc
  have hstep := ((VerifyClientProof_eq_some_true_iff msg).mp hacc).2.2.2.1
  refine ⟨?_, ?_, ?_⟩
  · intro k x hk hx
    apply eq_some_false_of_ne
    · exact VerifyClientProof_ne_none _ hS hH htn (by simp [hcs])
    · intro h2
      have hcs2 := ((VerifyClientProof_eq_some_true_iff _).mp h2).2.2.2.2
      simp only [hcs, List.sum_set', Option.some.injEq, hk, dite_true] at hcs2
      apply hx
      have hk2 : msg.proof.c.getD k 0 = msg.proof.c[k] := by
        simp [List.getD, List.getElem?_eq_getElem hk]
      rw [hk2]
      have h3 : -msg.proof.c[k] + x = 0 := by
        have := hcs2.symm
        rwa [add_right_eq_self] at this
      rw [neg_add_eq_zero] at h3
      exact h3.symm
  · intro k x hk hx
    apply eq_some_false_of_ne
    · exact VerifyClientProof_ne_none _ hS hH htn (by simp [hcs])
    · intro h2
      have hstep2 := ((VerifyClientProof_eq_some_true_iff _).mp h2).2.2.2.1
      have hi : k / 2 < msg.context.G.X.length := by omega
      obtain ⟨-, -, -, -, -, -, e0, e1, -⟩ :=
        (verifyStep_eq_some_true_iff msg _).mp (hstep _ hi)
      obtain ⟨-, -, -, -, -, -, f0, f1, -⟩ :=
        (verifyStep_eq_some_true_iff _ _).mp (hstep2 _ hi)
      simp only at f0 f1
      rw [e0] at f0
      rw [e1] at f1
      have hcase : k = 2 * (k / 2) ∨ k = 2 * (k / 2) + 1 := by omega
      apply hx
      rcases hcase with h0 | h1
      · rw [← h0, getD_set_self _ _ _ _ hk] at f0
        rw [← h0] at e0
        have := add_left_cancel (Option.some.inj f0)
        simp only [Mul] at this
        exact (hinj this).symm
      · rw [← h1, getD_set_self _ _ _ _ hk] at f1
        have := add_left_cancel (Option.some.inj f1)
        simp only [Mul] at this
        exact (hinj this).symm
  · intro k p hk hp
    apply eq_some_false_of_ne
    · refine VerifyClientProof_ne_none _ hS hH ?_ (by simp [hcs])
      intro m hm
      simp only [List.length_set] at hm
      by_cases hkm : k = m
      · subst hkm
        rw [getD_set_self _ _ _ _ hk]
        simp
      · simp only [getD_set_ne _ _ _ _ _ hkm]
        exact htn m hm
    · intro h2
      have hstep2 := ((VerifyClientProof_eq_some_true_iff _).mp h2).2.2.2.1
      have hi : k / 3 < msg.context.G.X.length := by omega
      obtain ⟨-, -, -, -, -, -, e0, e1, e2⟩ :=
        (verifyStep_eq_some_true_iff msg _).mp (hstep _ hi)
      obtain ⟨-, -, -, -, -, -, f0, f1, f2⟩ :=
        (verifyStep_eq_some_true_iff _ _).mp (hstep2 _ hi)
      simp only at f0 f1 f2
      have hcase : k = 3 * (k / 3) ∨ k = 3 * (k / 3) + 1 ∨ k = 3 * (k / 3) + 2 := by omega
      apply hp
      rcases hcase with h0 | h1 | h3
      · rw [← h0] at f0 e0
        rw [getD_set_self _ _ _ _ hk] at f0
        rw [f0, e0]
      · rw [← h1] at f1 e1
        rw [getD_set_self _ _ _ _ hk] at f1
        rw [f1, e1]
      · rw [← h3] at f2 e2
        rw [getD_set_self _ _ _ _ hk] at f2
        rw [f2, e2]


/-- Witness of C5: changing the challenge `c[0]` of `msg1` from 1 to 2. -/
theorem VerifyClientProof_proof_mutation_witness :
    VerifyClientProof msg1 = some true ∧
      VerifyClientProof { msg1 with proof := { msg1.proof with c := msg1.proof.c.set 0 2 } }
        = some false :=
  ⟨by decide,
    (VerifyClientProof_proof_mutation msg1 (by decide)
      (fun a b h => by simpa [ctx1, msg1] using h)).1 0 2 (by decide) (by decide)⟩

theorem getLastD_set_last {α : Type} (l : List α) (x d : α) (h : l ≠ []) :
    (l.set (l.length - 1) x).getLastD d = x := by
  have hlen : 0 < l.length := List.length_pos.mpr h
  rw [List.getLastD_eq_getLast?, List.getLast?_eq_getElem?, List.length_set, List.getElem?_set]
  simp [hlen]

theorem getLastD_set_of_lt {α : Type} (l : List α) (k : Nat) (x d : α) (h : k + 1 < l.length) :
    (l.set k x).getLastD d = l.getLastD d := by
  have hne : k ≠ l.length - 1 := by omega
  rw [List.getLastD_eq_getLast?, List.getLast?_eq_getElem?, List.length_set, List.getElem?_set,
    List.getLastD_eq_getLast?, List.getLast?_eq_getElem?, if_neg hne]

/-- C6, the claim as stated fails: replacing `S[0]` of the accepted message
`msg1` by a different point leaves it accepted, and on the accepted message
`msg0`, whose challenge is zero, so does replacing the last element of `S` or
the tag `T0`. -/
theorem VerifyClientProof_request_mutation_counterexample :
    (VerifyClientProof msg1 = some true ∧ (some 6 : Option ℤ) ≠ msg1.S.getD 0 none ∧
      VerifyClientProof { msg1 with S := msg1.S.set 0 (some 6) } = some true) ∧
    (VerifyClientProof msg0 = some true ∧ (some 8 : Option ℤ) ≠ msg0.S.getD 1 none ∧
      VerifyClientProof { msg0 with S := msg0.S.set 1 (some 8) } = some true) ∧
    ((some 6 : Option ℤ) ≠ msg0.T0 ∧
      VerifyClientProof { msg0 with T0 := some 6 } = some true) := by
  decide

/-- C6 as amended: on an accepted message with some non-zero challenge `c[i]`,
over a group where no non-zero scalar annihilates a non-zero point, replacing
the last point of `S`, or the tag `T0`, by a different point gives a message
that is rejected; replacing the point of `S` at any other position leaves the
message accepted. -/
theorem VerifyClientProof_request_mutation [NoZeroSMulDivisors Sc Pt]
    (msg : ClientMessage Sc Pt) (hacc : VerifyClientProof msg = some true)
    (hnz : ∃ i, i < msg.context.G.X.length ∧ msg.proof.c.getD i 0 ≠ 0) :
    (∀ q p, msg.S.getLast? = some (some q) → p ≠ q →
      VerifyClientProof { msg with S := msg.S.set (msg.S.length - 1) (some p) } = some false) ∧
    (∀ q p, msg.T0 = some q → p ≠ q →
      VerifyClientProof { msg with T0 := some p } = some false) ∧
    (∀ k p, k + 1 < msg.S.length →
      VerifyClientProof { msg with S := msg.S.set k p } = some true) := by
  obtain ⟨hc, hr, ht, hS, hH, htn, hcs⟩ := accepted_facts msg hacc
  have hstep := ((VerifyClientProof_eq_some_true_iff msg).mp hacc).2.2.2.1
  obtain ⟨i, hi, hci⟩ := hnz
  have hSne : msg.S ≠ [] := hS (by omega)
  obtain ⟨-, -, -, -, -, -, -, e1, e2⟩ := (verifyStep_eq_some_true_iff msg _).mp (hstep _ hi)
  refine ⟨?_, ?_, ?_⟩
  · intro q p hq hpq
    apply eq_some_false_of_ne
    · refine VerifyClientProof_ne_none _ ?_ hH htn (by simp [hcs])
      intro _ hnil
      have := congrArg List.length hnil
      simp only [List.length_set, List.length_nil] at this
      exact hSne (List.length_eq_zero.mp this)
    · intro h2
      have hstep2 := ((VerifyClientProof_eq_some_true_iff _).mp h2).2.2.2.1
      obtain ⟨-, -, -, -, -, -, -, f1, -⟩ := (verifyStep_eq_some_true_iff _ _).mp (hstep2 _ hi)
      simp only at f1
      rw [getLastD_set_last _ _ _ hSne, e1] at f1
      have hl : msg.S.getLastD none = some q := by
        rw [List.getLastD_eq_getLast?, hq]
        rfl
      rw [hl] at f1
      have h3 := add_right_cancel (Option.some.inj f1)
      simp only [Mul] at h3
      have h4 : msg.proof.c.getD i 0 • (q - p) = 0 := by rw [smul_sub, h3, sub_self]
      rcases smul_eq_zero.mp h4 with h5 | h5
      · exact hci h5
      · exact hpq (sub_eq_zero.mp h5).symm
  · intro q p hq hpq
    apply eq_some_false_of_ne
    · exact VerifyClientProof_ne_none _ hS hH htn (by simp [hcs])
    · intro h2
      have hstep2 := ((VerifyClientProof_eq_some_true_iff _).mp h2).2.2.2.1
      obtain ⟨-, -, -, -, -, -, -, -, f2⟩ := (verifyStep_eq_some_true_iff _ _).mp (hstep2 _ hi)
      simp only at f2
      rw [e2, hq] at f2
      have h3 := add_right_cancel (Option.some.inj f2)
      simp only [Mul] at h3
      have h4 : msg.proof.c.getD i 0 • (q - p) = 0 := by rw [smul_sub, h3, sub_self]
      rcases smul_eq_zero.mp h4 with h5 | h5
      · exact hci h5
      · exact hpq (sub_eq_zero.mp h5).symm
  · intro k p hk
    rw [VerifyClientProof_eq_some_true_iff]
    refine ⟨hc, hr, ht, fun j hj => ?_, hcs⟩
    have hj1 := (verifyStep_eq_some_true_iff msg j).mp (hstep j hj)
    rw [verifyStep_eq_some_true_iff]
    simp only
    rw [getLastD_set_of_lt _ _ _ _ hk]
    refine ⟨hj1.1, hj1.2.1, hj1.2.2.1, hj1.2.2.2.1, ?_, hj1.2.2.2.2.2⟩
    intro hnil
    have := congrArg List.length hnil
    simp only [List.length_set, List.length_nil] at this
    omega

/-- Witness of the amended C6 on `msg1`: replacing the last point of `S`. -/
theorem VerifyClientProof_request_mutation_witness :
    VerifyClientProof msg1 = some true ∧
      VerifyClientProof { msg1 with S := msg1.S.set (msg1.S.length - 1) (some 8) }
        = some false :=
  ⟨by decide,
    (VerifyClientProof_request_mutation msg1 (by decide) ⟨0, by decide, by decide⟩).1 7 8
      (by decide) (by decide)⟩


/-! ## Claims on the proof builders and on CreateRequest -/

/-- The response builder assigns to `c[client.index]` while `c` is still the
nil slice: it panics on every input. -/
theorem GenerateProofResponses_eq_none (client : Client Sc) (ctx : ContextEd25519 Pt)
    (s cs : Sc) (w v : List Sc) : GenerateProofResponses client ctx s cs w v = none := by
  unfold GenerateProofResponses
  simp [goCopy, setI, setAt]

/-- C1: the honest run (commitments, responses, verification) never returns
true: on every input it ends in a panic, since `GenerateProofResponses` writes
into its nil result slice. -/
theorem honestRun_eq_none (client : Client Sc) (ctx : ContextEd25519 Pt) (rand : Nat → Sc)
    (S : List (Option Pt)) (T0 : Option Pt) (s cs : Sc) :
    honestRun client ctx rand S T0 s cs = none := by
  unfold honestRun
  cases GenerateProofCommitments client ctx rand T0 s with
  | none => rfl
  | some tvw => simp [GenerateProofResponses_eq_none]

/-- Two clients, client 0 with key 2, `s = 4`, `T0 = H[0] * 4`, last point of
`S` equal to `Base * 4`, challenge `cs = 5`: the commitments are those the
builder returns, and `c = [5 - 2, 2]`, `r = [3 - 3 * 2, 4 - 3 * 4, 5, 6]` are the
responses described for them (`c = w` and `r = v` except at the client index).
The message is rejected at index 1, where `t[3]` was built from `H[1]` and
is recomputed from `X[1]`. -/
theorem described_responses_rejected :
    GenerateProofCommitments client1 ctx2 rand1 (some 12) 4
        = some ([some 3, some 4, some 12, some 19, some 14, some 66], [3, 4, 5, 6], [0, 2]) ∧
      VerifyClientProof
          { context := ctx2, S := [some 9, some 4], T0 := some 12,
            proof := { cs := some 5, t := [some 3, some 4, some 12, some 19, some 14, some 66],
                       c := [3, 2], r := [-3, -8, 5, 6] } }
        = some false := by
  decide

theorem setAt_length {α : Type} {l l1 : List α} {i : Nat} {x : α} (h : setAt l i x = some l1) :
    l1.length = l.length := by
  unfold setAt at h
  split_ifs at h
  rw [← Option.some.inj h, List.length_set]

/-- The commitment loop of `CreateRequest` panics whenever it is asked to write
past the end of `S`. -/
theorem chainLoop_eq_none_of_short (C : Curve Pt) (setBytes : List Nat → Sc)
    (shared : List (List Nat)) (k i : Nat) (S : List (Option Pt)) (exp : Sc)
    (h1 : i ≤ S.length) (h2 : S.length < i + k) :
    chainLoop C setBytes shared k i S exp = none := by
  induction k generalizing i S exp with
  | zero => omega
  | succ k ih =>
    unfold chainLoop
    cases hs : setAt S i (some (Mul C none exp)) with
    | none => rfl
    | some S1 =>
      have hlen := setAt_length hs
      have hi : i < S.length := by
        unfold setAt at hs
        split_ifs at hs with h
        exact h
      cases hsh : shared[i]? with
      | none => rfl
      | some sh =>
        simp only [Option.some_bind]
        exact ih (i + 1) S1 _ (by omega) (by omega)

/-- When no serialisation fails, the shared-secret loop does not end with an
error. -/
theorem sharedLoop_ne_error (ctx : ContextEd25519 Pt) (z : Sc)
    (marshalTo : Pt → Except String (List Nat)) (sha512 : List Nat → List Nat)
    (hser : ∀ p, ∃ b, marshalTo p = Except.ok b) (k i : Nat) (shared : List (List Nat))
    (err : String) :
    sharedLoop ctx z marshalTo sha512 k i shared ≠ Outcome.error err := by
  induction k generalizing i shared with
  | zero => simp [sharedLoop]
  | succ k ih =>
    unfold sharedLoop
    cases hY : ctx.G.Y[i]? with
    | none => simp
    | some Yi =>
      obtain ⟨b, hb⟩ := hser (Mul ctx.C Yi z)
      simp only [hb]
      cases hs : setAt shared i (sha512 b) with
      | none => simp
      | some sh => exact ih (i + 1) sh

/-- Every call of `CreateRequest` ends with an error or a panic. -/
theorem CreateRequest_not_ok (client : Client Sc) (ctx : ContextEd25519 Pt) (rand : Nat → Sc)
    (marshalTo : Pt → Except String (List Nat)) (sha512 : List Nat → List Nat)
    (setBytes : List Nat → Sc) :
    CreateRequest client ctx rand marshalTo sha512 setBytes = Outcome.fault ∨
      ∃ err, CreateRequest client ctx rand marshalTo sha512 setBytes = Outcome.error err := by
  unfold CreateRequest
  simp only []
  cases sharedLoop ctx (rand 0) marshalTo sha512 ctx.G.Y.length 0
      (List.replicate ctx.G.Y.length []) with
  | fault => exact Or.inl rfl
  | error err => exact Or.inr ⟨err, rfl⟩
  | ok shared =>
    left
    simp only []
    cases expLoop setBytes shared ctx.G.Y.length 0 1 with
    | none => rfl
    | some exp =>
      simp only []
      cases getI ctx.H client.index with
      | none => rfl
      | some Hi =>
        simp only []
        rw [chainLoop_eq_none_of_short ctx.C setBytes shared _ 0 _ 1 (by simp) (by simp)]

/-- C7: when every point serialisation succeeds, `CreateRequest` does not
return a result: it ends in a panic, because the commitment loop writes
`S[len(Y)]` into a slice of length `len(Y)`. -/
theorem CreateRequest_fault_of_marshal_ok (client : Client Sc) (ctx : ContextEd25519 Pt)
    (rand : Nat → Sc) (marshalTo : Pt → Except String (List Nat))
    (sha512 : List Nat → List Nat) (setBytes : List Nat → Sc)
    (hser : ∀ p, ∃ b, marshalTo p = Except.ok b) :
    CreateRequest client ctx rand marshalTo sha512 setBytes = Outcome.fault := by
  rcases CreateRequest_not_ok client ctx rand marshalTo sha512 setBytes with h | ⟨err, h⟩
  · exact h
  · exfalso
    unfold CreateRequest at h
    simp only [] at h
    cases hsl : sharedLoop ctx (rand 0) marshalTo sha512 ctx.G.Y.length 0
        (List.replicate ctx.G.Y.length []) with
    | fault => simp [hsl] at h
    | error e => exact sharedLoop_ne_error ctx _ marshalTo sha512 hser _ _ _ e hsl
    | ok shared =>
      rw [hsl] at h
      simp only [] at h
      cases he : expLoop setBytes shared ctx.G.Y.length 0 1 with
      | none => simp [he] at h
      | some exp =>
        rw [he] at h
        simp only [] at h
        cases hg : getI ctx.H client.index with
        | none => simp [hg] at h
        | some Hi =>
          rw [hg] at h
          simp only [] at h
          rw [chainLoop_eq_none_of_short ctx.C setBytes shared _ 0 _ 1 (by simp) (by simp)] at h
          simp at h


/-- Witness of C7: one server, a serialisation that never fails. -/
theorem CreateRequest_fault_of_marshal_ok_witness :
    (∀ p, ∃ b, marshal1 p = Except.ok b) ∧
      CreateRequest client1 ctx1 rand1 marshal1 hash1 setBytes1 = Outcome.fault :=
  ⟨fun p => ⟨[p.toNat], rfl⟩,
    CreateRequest_fault_of_marshal_ok client1 ctx1 rand1 marshal1 hash1 setBytes1
      fun p => ⟨[p.toNat], rfl⟩⟩

/-- C8: the commitment loop of `CreateRequest` never produces a chain: for
every number `m` of servers it runs `m + 1` iterations on a slice `S` of
length `m` and panics. -/
theorem CreateRequest_chain_overrun (C : Curve Pt) (setBytes : List Nat → Sc)
    (shared : List (List Nat)) (m : Nat) :
    chainLoop C setBytes shared (m + 1) 0 (List.replicate m none) 1 = none :=
  chainLoop_eq_none_of_short C setBytes shared _ 0 _ 1 (by simp) (by simp)

/-- C9: no call of `CreateRequest` returns a tag `T0`, a chain `S` and a
scalar `s`. -/
theorem CreateRequest_returns_nothing (client : Client Sc) (ctx : ContextEd25519 Pt)
    (rand : Nat → Sc) (marshalTo : Pt → Except String (List Nat))
    (sha512 : List Nat → List Nat) (setBytes : List Nat → Sc) :
    ¬ ∃ T0 S s, CreateRequest client ctx rand marshalTo sha512 setBytes
      = Outcome.ok (T0, S, s) := by
  rintro ⟨T0, S, s, h⟩
  rcases CreateRequest_not_ok client ctx rand marshalTo sha512 setBytes with h1 | ⟨err, h1⟩
  · rw [h1] at h
    exact Outcome.noConfusion h
  · rw [h1] at h
    exact Outcome.noConfusion h

theorem setAt_of_lt {α : Type} (l : List α) (i : Nat) (x : α) (h : i < l.length) :
    setAt l i x = some (l.set i x) := by
  simp [setAt, h]

/-- Invariant of the commitment loop of `GenerateProofCommitments`: started at
`i` with `k` iterations left on slices that are long enough, it ends without a
panic, keeps the length of `t` and the entries below `3 * i`, and stores the three
commitments of every index from `i` to `i + k - 1`. -/
theorem commitLoop_spec (ctx : ContextEd25519 Pt) (T0 : Option Pt) (s : Sc) (w v : List Sc)
    (k i : Nat) (t : List (Option Pt))
    (hH : i + k ≤ ctx.H.length) (hw : i + k ≤ w.length) (hv : 2 * (i + k) ≤ v.length)
    (ht : 3 * (i + k) ≤ t.length) :
    ∃ t1, commitLoop ctx T0 s w v k i t = some t1 ∧ t1.length = t.length ∧
      (∀ m, m < 3 * i → t1.getD m none = t.getD m none) ∧
      ∀ j, i ≤ j → j < i + k →
        t1.getD (3 * j) none
          = some (Mul ctx.C (ctx.H.getD j none) (w.getD j 0)
              + Mul ctx.C none (v.getD (2 * j) 0)) ∧
        t1.getD (3 * j + 1) none
          = some (Mul ctx.C (some (Mul ctx.C none s)) (w.getD j 0)
              + Mul ctx.C none (v.getD (2 * j + 1) 0)) ∧
        t1.getD (3 * j + 2) none
          = some (Mul ctx.C T0 (w.getD j 0)
              + Mul ctx.C (ctx.H.getD j none) (v.getD (2 * j + 1) 0)) := by
  induction k generalizing i t with
  | zero =>
    refine ⟨t, rfl, rfl, fun _ _ => rfl, ?_⟩
    intro j h1 h2
    omega
  | succ k ih =>
    unfold commitLoop
    rw [lookup_of_lt _ i none (by omega), lookup_of_lt _ i 0 (by omega),
      lookup_of_lt _ (2 * i) 0 (by omega), lookup_of_lt _ (2 * i + 1) 0 (by omega)]
    simp only [Option.some_bind, Add]
    rw [setAt_of_lt _ _ _ (by omega)]
    simp only [Option.some_bind]
    rw [setAt_of_lt _ _ _ (by simp only [List.length_set]; omega)]
    simp only [Option.some_bind]
    rw [setAt_of_lt _ _ _ (by simp only [List.length_set]; omega)]
    simp only [Option.some_bind]
    obtain ⟨t1, hrun, hlen, hlow, hhigh⟩ :=
      ih (i + 1)
        (((t.set (3 * i)
            (some (Mul ctx.C (ctx.H.getD i none) (w.getD i 0)
              + Mul ctx.C none (v.getD (2 * i) 0)))).set (3 * i + 1)
            (some (Mul ctx.C (some (Mul ctx.C none s)) (w.getD i 0)
              + Mul ctx.C none (v.getD (2 * i + 1) 0)))).set (3 * i + 2)
            (some (Mul ctx.C T0 (w.getD i 0)
              + Mul ctx.C (ctx.H.getD i none) (v.getD (2 * i + 1) 0))))
        (by omega) (by omega) (by omega) (by simp only [List.length_set]; omega)
    refine ⟨t1, hrun, ?_, ?_, ?_⟩
    · simpa only [List.length_set] using hlen
    · intro m hm
      rw [hlow m (by omega), getD_set_ne _ _ _ _ _ (by omega), getD_set_ne _ _ _ _ _ (by omega),
        getD_set_ne _ _ _ _ _ (by omega)]
    · intro j h1 h2
      rcases Nat.eq_or_lt_of_le h1 with rfl | hlt
      · refine ⟨?_, ?_, ?_⟩
        · rw [hlow _ (by omega), getD_set_ne _ _ _ _ _ (by omega),
            getD_set_ne _ _ _ _ _ (by omega), getD_set_self _ _ _ _ (by omega)]
        · rw [hlow _ (by omega), getD_set_ne _ _ _ _ _ (by omega),
            getD_set_self _ _ _ _ (by simp only [List.length_set]; omega)]
        · rw [hlow _ (by omega),
            getD_set_self _ _ _ _ (by simp only [List.length_set]; omega)]
      · exact hhigh j (by omega) (by omega)

/-- C10: for a client index within `H`, `GenerateProofCommitments` returns
`(t, v, w)` such that, at every `i` below `N = len(H)`,
`t[3i] = H[i]*w[i] + Base*v[2i]`, `t[3i+1] = (Base*s)*w[i] + Base*v[2i+1]` and
`t[3i+2] = T0*w[i] + H[i]*v[2i+1]`. -/
theorem GenerateProofCommitments_equations (client : Client Sc) (ctx : ContextEd25519 Pt)
    (rand : Nat → Sc) (T0 : Option Pt) (s : Sc)
    (h0 : 0 ≤ client.index) (h1 : client.index < ctx.H.length) :
    ∃ t v w, GenerateProofCommitments client ctx rand T0 s = some (t, v, w) ∧
      ∀ i, i < ctx.H.length →
        t.getD (3 * i) none
          = some (Mul ctx.C (ctx.H.getD i none) (w.getD i 0)
              + Mul ctx.C none (v.getD (2 * i) 0)) ∧
        t.getD (3 * i + 1) none
          = some (Mul ctx.C (some (Mul ctx.C none s)) (w.getD i 0)
              + Mul ctx.C none (v.getD (2 * i + 1) 0)) ∧
        t.getD (3 * i + 2) none
          = some (Mul ctx.C T0 (w.getD i 0)
              + Mul ctx.C (ctx.H.getD i none) (v.getD (2 * i + 1) 0)) := by
  unfold GenerateProofCommitments
  simp only []
  have hidx : client.index.toNat < ((List.range ctx.H.length).map rand).length := by
    simp only [List.length_map, List.length_range]
    omega
  have hset : setI ((List.range ctx.H.length).map rand) client.index 0
      = some (((List.range ctx.H.length).map rand).set client.index.toNat 0) := by
    unfold setI
    rw [if_neg (by omega), setAt_of_lt _ _ _ hidx]
  rw [hset]
  simp only [Option.some_bind]
  obtain ⟨t1, hrun, -, -, hhigh⟩ :=
    commitLoop_spec ctx T0 s (((List.range ctx.H.length).map rand).set client.index.toNat 0)
      ((List.range (2 * ctx.H.length)).map fun i => rand (ctx.H.length + i))
      ctx.H.length 0 (List.replicate (3 * ctx.H.length) none)
      (by omega) (by simp) (by simp) (by simp)
  rw [hrun]
  refine ⟨t1, _, _, rfl, ?_⟩
  intro i hi
  exact hhigh i (Nat.zero_le i) (by omega)

/-- Witness of C10 on the context `ctx1` with the client of index 0. -/
theorem GenerateProofCommitments_equations_witness :
    ∃ t v w, GenerateProofCommitments client1 ctx1 rand1 (some 5) 4 = some (t, v, w) ∧
      ∀ i, i < ctx1.H.length →
        t.getD (3 * i) none
          = some (Mul ctx1.C (ctx1.H.getD i none) (w.getD i 0)
              + Mul ctx1.C none (v.getD (2 * i) 0)) ∧
        t.getD (3 * i + 1) none
          = some (Mul ctx1.C (some (Mul ctx1.C none (4 : ℤ))) (w.getD i 0)
              + Mul ctx1.C none (v.getD (2 * i + 1) 0)) ∧
        t.getD (3 * i + 2) none
          = some (Mul ctx1.C (some 5) (w.getD i 0)
              + Mul ctx1.C (ctx1.H.getD i none) (v.getD (2 * i + 1) 0)) :=
  GenerateProofCommitments_equations client1 ctx1 rand1 (some 5) 4 (by decide) (by decide)

/-! ## Claims on ValidateClientMessage, on faults of the verifier and on the prepend -/

/-- C11: for a client index within `H`, `GenerateProofCommitments` returns `w`
of length `N = len(H)` with `w[client.index]` equal to zero, `v` of length `2N`
and `t` of length `3N`. -/
theorem GenerateProofCommitments_lengths (client : Client Sc) (ctx : ContextEd25519 Pt)
    (rand : Nat → Sc) (T0 : Option Pt) (s : Sc)
    (h0 : 0 ≤ client.index) (h1 : client.index < ctx.H.length) :
    ∃ t v w, GenerateProofCommitments client ctx rand T0 s = some (t, v, w) ∧
      w.length = ctx.H.length ∧ getI w client.index = some 0 ∧
      v.length = 2 * ctx.H.length ∧ t.length = 3 * ctx.H.length := by
  unfold GenerateProofCommitments
  simp only []
  have hidx : client.index.toNat < ((List.range ctx.H.length).map rand).length := by
    simp only [List.length_map, List.length_range]
    omega
  have hset : setI ((List.range ctx.H.length).map rand) client.index 0
      = some (((List.range ctx.H.length).map rand).set client.index.toNat 0) := by
    unfold setI
    rw [if_neg (by omega), setAt_of_lt _ _ _ hidx]
  rw [hset]
  simp only [Option.some_bind]
  obtain ⟨t1, hrun, hlen, -, -⟩ :=
    commitLoop_spec ctx T0 s (((List.range ctx.H.length).map rand).set client.index.toNat 0)
      ((List.range (2 * ctx.H.length)).map fun i => rand (ctx.H.length + i))
      ctx.H.length 0 (List.replicate (3 * ctx.H.length) none)
      (by omega) (by simp) (by simp) (by simp)
  rw [hrun]
  refine ⟨t1, _, _, rfl, by simp, ?_, by simp, by simpa using hlen⟩
  unfold getI
  rw [if_neg (by omega), List.getElem?_set_self hidx]

/-- Witness of C11 on the context `ctx2` with the client of index 0. -/
theorem GenerateProofCommitments_lengths_witness :
    ∃ t v w, GenerateProofCommitments client1 ctx2 rand1 (some 12) 4 = some (t, v, w) ∧
      w.length = ctx2.H.length ∧ getI w client1.index = some 0 ∧
      v.length = 2 * ctx2.H.length ∧ t.length = 3 * ctx2.H.length :=
  GenerateProofCommitments_lengths client1 ctx2 rand1 (some 12) 4 (by decide) (by decide)

/-- C12: `GenerateProofResponses` returns no challenges `c` at all: whatever the
context, the challenge `cs` and the slices `w`, `v`, no call returns a pair
`(c, r)`. -/
theorem GenerateProofResponses_returns_nothing (client : Client Sc) (ctx : ContextEd25519 Pt)
    (s cs : Sc) (w v : List Sc) :
    ¬ ∃ c r, GenerateProofResponses client ctx s cs w v = some (c, r) := by
  rintro ⟨c, r, h⟩
  rw [GenerateProofResponses_eq_none] at h
  exact Option.noConfusion h

/-- C13: in `GenerateProofResponses` the slice `r` is nil when `copy(r, v)`
runs, so it stays empty and no position of it can be assigned; the call as a
whole ends in a panic. -/
theorem GenerateProofResponses_nil_responses (client : Client Sc) (ctx : ContextEd25519 Pt)
    (s cs : Sc) (w v : List Sc) :
    goCopy ([] : List Sc) v = [] ∧
      (∀ (k : Int) (x : Sc), setI (goCopy ([] : List Sc) v) k x = none) ∧
      GenerateProofResponses client ctx s cs w v = none := by
  refine ⟨by simp [goCopy], ?_, GenerateProofResponses_eq_none client ctx s cs w v⟩
  intro k x
  simp [goCopy, setI, setAt]

/-- What a `true` from `ValidateClientMessage` says about the message, for
every outcome `same` of the comparison of line 196. -/
theorem ValidateClientMessage_true_facts (same : Option Pt → Pt → Bool)
    (msg : ClientMessage Sc Pt) (h : ValidateClientMessage same msg = some true) :
    msg.S.length = msg.context.G.Y.length + 2 ∧ msg.T0 ≠ none ∧
      msg.proof.c.length = msg.context.G.Y.length ∧
      msg.proof.r.length = 2 * msg.context.G.X.length ∧
      msg.proof.t.length = 3 * msg.context.G.X.length ∧ msg.proof.cs ≠ none := by
  unfold ValidateClientMessage at h
  simp only [] at h
  by_cases hS : msg.S.length = msg.context.G.Y.length + 2
  swap
  · rw [if_pos hS] at h
    exact absurd h (by simp)
  rw [if_neg (not_not.mpr hS)] at h
  cases hS0 : msg.S[0]? with
  | none => simp [hS0] at h
  | some S0 =>
    rw [hS0] at h
    simp only [Option.some_bind] at h
    by_cases hsame : (!same S0 (Mul msg.context.C none (1 : Sc))) = true
    · rw [if_pos hsame] at h
      exact absurd h (by simp)
    rw [if_neg hsame] at h
    by_cases hT : msg.T0.isNone = true
    · rw [if_pos hT] at h
      exact absurd h (by simp)
    rw [if_neg hT] at h
    by_cases hlen : msg.proof.c.length ≠ msg.context.G.Y.length ∨
        msg.proof.r.length ≠ 2 * msg.context.G.X.length ∨
        msg.proof.t.length ≠ 3 * msg.context.G.X.length ∨ msg.proof.cs.isNone = true
    · rw [if_pos hlen] at h
      exact absurd h (by simp)
    refine ⟨hS, ?_, ?_, ?_, ?_, ?_⟩
    · intro hnone
      exact hT (by simp [hnone])
    · by_contra hc
      exact hlen (Or.inl hc)
    · by_contra hr
      exact hlen (Or.inr (Or.inl hr))
    · by_contra ht
      exact hlen (Or.inr (Or.inr (Or.inl ht)))
    · intro hnone
      exact hlen (Or.inr (Or.inr (Or.inr (by simp [hnone]))))

/-- `ValidateClientMessage` never panics: the only index expression, `S[0]`,
is evaluated after the length of `S` was found to be at least 2. -/
theorem ValidateClientMessage_ne_none (same : Option Pt → Pt → Bool)
    (msg : ClientMessage Sc Pt) : ValidateClientMessage same msg ≠ none := by
  unfold ValidateClientMessage
  simp only []
  by_cases hS : msg.S.length = msg.context.G.Y.length + 2
  swap
  · rw [if_pos hS]
    simp
  rw [if_neg (not_not.mpr hS), lookup_of_lt _ 0 none (by omega)]
  simp only [Option.some_bind]
  split_ifs <;> simp

/-- On the code the freshly built point of line 196 differs from every element
of `S`, and `ValidateClientMessage` returns false on every message. -/
theorem ValidateClientMessage_fresh_pointer (msg : ClientMessage Sc Pt) :
    ValidateClientMessage samePointer msg = some false := by
  unfold ValidateClientMessage samePointer
  simp only []
  by_cases hS : msg.S.length = msg.context.G.Y.length + 2
  swap
  · rw [if_pos hS]
  rw [if_neg (not_not.mpr hS), lookup_of_lt _ 0 none (by omega)]
  simp

/-- C14: `ValidateClientMessage` returns false on messages that have every
property the claim lists.  The message `msg5` (one client, one server) has a
chain of length `M + 2` whose second element is the base point, a tag `T0`,
and `c`, `r`, `t` of lengths `N`, `2N`, `3N`; it is rejected at the comparison
of `S[0]` on line 196.  The message `msg6` (two clients, one server) has the
same properties and is rejected whatever that comparison gives, since line
204 tests `len(c)` against the number of servers.  `VerifyClientProof` accepts
both. -/
theorem ValidateClientMessage_rejects_well_formed :
    ((msg5.S.length = msg5.context.G.Y.length + 2 ∧
        msg5.S.getD 1 none = some msg5.context.C.Base ∧ msg5.T0 ≠ none ∧
        msg5.proof.c.length = msg5.context.G.X.length ∧
        msg5.proof.r.length = 2 * msg5.context.G.X.length ∧
        msg5.proof.t.length = 3 * msg5.context.G.X.length) ∧
      VerifyClientProof msg5 = some true ∧
      ValidateClientMessage samePointer msg5 = some false) ∧
    ((msg6.S.length = msg6.context.G.Y.length + 2 ∧
        msg6.S.getD 1 none = some msg6.context.C.Base ∧ msg6.T0 ≠ none ∧
        msg6.proof.c.length = msg6.context.G.X.length ∧
        msg6.proof.r.length = 2 * msg6.context.G.X.length ∧
        msg6.proof.t.length = 3 * msg6.context.G.X.length) ∧
      VerifyClientProof msg6 = some true ∧
      ∀ same : Option ℤ → ℤ → Bool, ValidateClientMessage same msg6 = some false) := by
  refine ⟨by decide, by decide, by decide, ?_⟩
  intro same
  apply eq_some_false_of_ne (ValidateClientMessage_ne_none same msg6)
  intro htrue
  have hc := (ValidateClientMessage_true_facts same msg6 htrue).2.2.1
  exact absurd hc (by decide)

/-- C15: a message whose chain `S` has a length other than `M + 2`, or whose
tag `T0` is unset, makes `ValidateClientMessage` return false; there is no
panic. -/
theorem ValidateClientMessage_false_of_shape (same : Option Pt → Pt → Bool)
    (msg : ClientMessage Sc Pt)
    (h : msg.S.length ≠ msg.context.G.Y.length + 2 ∨ msg.T0 = none) :
    ValidateClientMessage same msg = some false := by
  apply eq_some_false_of_ne (ValidateClientMessage_ne_none same msg)
  intro htrue
  obtain ⟨hS, hT, -⟩ := ValidateClientMessage_true_facts same msg htrue
  rcases h with h | h
  · exact h hS
  · exact hT h

/-- Witness of C15: the chain of `msg1` has length `M + 1`. -/
theorem ValidateClientMessage_false_of_shape_witness :
    msg1.S.length = msg1.context.G.Y.length + 1 ∧
      ValidateClientMessage samePointer msg1 = some false :=
  ⟨by decide, ValidateClientMessage_false_of_shape samePointer msg1 (Or.inl (by decide))⟩

/-- C16: `VerifyClientProof` panics on the message `msg1` with its chain `S`
emptied (index `len(S) - 1 = -1`), and on `msg1` over a context whose `H` is
shorter than `X` (index `H[0]` of an empty slice). -/
theorem VerifyClientProof_panics :
    VerifyClientProof { msg1 with S := [] } = none ∧
      VerifyClientProof { msg1 with context := { ctx1 with H := [] } } = none := by
  decide

/-- C19: over a context without clients, a message whose `c`, `r`, `t` are
empty is accepted by `VerifyClientProof` exactly when `proof.cs` is the zero
scalar, whatever `S`, `T0`, `H`, `Y` and `R` are. -/
theorem VerifyClientProof_no_clients (msg : ClientMessage Sc Pt)
    (hX : msg.context.G.X = []) (hc : msg.proof.c = []) (hr : msg.proof.r = [])
    (ht : msg.proof.t = []) :
    VerifyClientProof msg = some true ↔ msg.proof.cs = some 0 := by
  rw [VerifyClientProof_eq_some_true_iff, hX, hc, hr, ht]
  simp

/-- Witness of C19 on the message `msgEmpty`, whose chain `S` is empty. -/
theorem VerifyClientProof_no_clients_witness :
    msgEmpty.S = [] ∧ VerifyClientProof msgEmpty = some true :=
  ⟨rfl, (VerifyClientProof_no_clients msgEmpty rfl rfl rfl rfl).mpr rfl⟩

/-- C20: the prepend step of `CreateRequest` maps a sequence `S` and a point `Z`
to the sequence `Z, S[0], ..., S[k-1]`, of length `k + 1`. -/
theorem prepend_eq_cons (S : List (Option Pt)) (Z : Pt) :
    prepend S Z = some (some Z :: S) ∧ (some Z :: S).length = S.length + 1 := by
  refine ⟨?_, rfl⟩
  unfold prepend goCopy
  simp only []
  cases S with
  | nil => simp [setAt]
  | cons a l =>
    have hlen : ((a :: l ++ [none]).drop 1).length = (a :: l).length := by simp
    rw [hlen, List.take_left]
    simp [setAt]

/-- C17: at a non-client index `j`, the commitment `t[3j]` built by
`GenerateProofCommitments` equals the value `X[j]*w[j] + Base*v[2j]` that
`VerifyClientProof` recomputes from `c[j] = w[j]`, `r[2j] = v[2j]` exactly when
`X[j]*w[j] = H[j]*w[j]`; and when the last point of `S` is `Base*s`, the
commitments `t[3j+1]` and `t[3j+2]` equal the values recomputed from
`c[j] = w[j]`, `r[2j+1] = v[2j+1]`. -/
theorem simulated_commitments (client : Client Sc) (ctx : ContextEd25519 Pt)
    (rand : Nat → Sc) (S : List (Option Pt)) (T0 : Option Pt) (s : Sc)
    (hN : ctx.H.length = ctx.G.X.length)
    (h0 : 0 ≤ client.index) (h1 : client.index < ctx.H.length) :
    ∃ t v w, GenerateProofCommitments client ctx rand T0 s = some (t, v, w) ∧
      ∀ j, j < ctx.G.X.length → (j : Int) ≠ client.index →
        (t.getD (3 * j) none
            = some (Mul ctx.C (ctx.G.X.getD j none) (w.getD j 0)
                + Mul ctx.C none (v.getD (2 * j) 0)) ↔
          Mul ctx.C (ctx.G.X.getD j none) (w.getD j 0)
            = Mul ctx.C (ctx.H.getD j none) (w.getD j 0)) ∧
        (S.getLastD none = some (Mul ctx.C none s) →
          t.getD (3 * j + 1) none
              = some (Mul ctx.C (S.getLastD none) (w.getD j 0)
                  + Mul ctx.C none (v.getD (2 * j + 1) 0)) ∧
            t.getD (3 * j + 2) none
              = some (Mul ctx.C T0 (w.getD j 0)
                  + Mul ctx.C (ctx.H.getD j none) (v.getD (2 * j + 1) 0))) := by
  unfold GenerateProofCommitments
  simp only []
  have hidx : client.index.toNat < ((List.range ctx.H.length).map rand).length := by
    simp only [List.length_map, List.length_range]
    omega
  have hset : setI ((List.range ctx.H.length).map rand) client.index 0
      = some (((List.range ctx.H.length).map rand).set client.index.toNat 0) := by
    unfold setI
    rw [if_neg (by omega), setAt_of_lt _ _ _ hidx]
  rw [hset]
  simp only [Option.some_bind]
  obtain ⟨t1, hrun, -, -, hhigh⟩ :=
    commitLoop_spec ctx T0 s (((List.range ctx.H.length).map rand).set client.index.toNat 0)
      ((List.range (2 * ctx.H.length)).map fun i => rand (ctx.H.length + i))
      ctx.H.length 0 (List.replicate (3 * ctx.H.length) none)
      (by omega) (by simp) (by simp) (by simp)
  rw [hrun]
  refine ⟨t1, _, _, rfl, ?_⟩
  intro j hj _
  obtain ⟨e0, e1, e2⟩ := hhigh j (Nat.zero_le j) (by omega)
  refine ⟨?_, ?_⟩
  · rw [e0]
    constructor
    · intro h
      exact (add_right_cancel (Option.some.inj h)).symm
    · intro h
      rw [h]
  · intro hS
    rw [hS]
    exact ⟨e1, e2⟩

/-- Witness of C17 on the context `ctx2` with the client of index 0: at the
index 1 the first commitment is not the recomputed value, since
`X[1]*w[1] = 10` and `H[1]*w[1] = 14`. -/
theorem simulated_commitments_witness :
    ∃ t v w, GenerateProofCommitments client1 ctx2 rand1 (some 12) 4 = some (t, v, w) ∧
      ∀ j, j < ctx2.G.X.length → (j : Int) ≠ client1.index →
        (t.getD (3 * j) none
            = some (Mul ctx2.C (ctx2.G.X.getD j none) (w.getD j 0)
                + Mul ctx2.C none (v.getD (2 * j) 0)) ↔
          Mul ctx2.C (ctx2.G.X.getD j none) (w.getD j 0)
            = Mul ctx2.C (ctx2.H.getD j none) (w.getD j 0)) ∧
        (([some 9, some 4] : List (Option ℤ)).getLastD none = some (Mul ctx2.C none (4 : ℤ)) →
          t.getD (3 * j + 1) none
              = some (Mul ctx2.C (([some 9, some 4] : List (Option ℤ)).getLastD none)
                  (w.getD j 0) + Mul ctx2.C none (v.getD (2 * j + 1) 0)) ∧
            t.getD (3 * j + 2) none
              = some (Mul ctx2.C (some 12) (w.getD j 0)
                  + Mul ctx2.C (ctx2.H.getD j none) (v.getD (2 * j + 1) 0))) :=
  simulated_commitments client1 ctx2 rand1 [some 9, some 4] (some 12) 4 (by decide)
    (by decide) (by decide)

end Lemmas

end Daga
